import Mathlib

/-!
Shallow embedding of `rspamd-mon`'s rate/gauge derivation and rolling-history
engine (`src/counters.rs`), together with theorems settling the specification
claims about it.

Modelling conventions:
* `f64` is modelled by `F`: either `nan` or an exact rational value.  The code
  only divides by nonzero denominators (the zero-elapsed case is caught before
  dividing, and the scan-time mean divides by a nonempty list's length), so no
  infinities arise on the modelled paths.
* `VecDeque<f64>` is a `List F` (`push_back` appends at the tail, `pop_front`
  drops the head).
* `Duration` enters the element update only through `elapsed.as_millis()`, so
  updates take the millisecond count directly as a `Nat`.
* `serde_json::Value` is modelled by `Json`, distinguishing integer numbers in
  `u64` range (where `as_u64` succeeds) from other numbers (where it fails),
  exactly the distinction the code observes through `as_u64`/`as_f64`.
* `Box<dyn Error>` results are `Except String`, carrying the source's error
  strings.
-/

/-- Model of `f64`: NaN or an exact rational value. -/
inductive F where
  | nan : F
  | val : ℚ → F
deriving DecidableEq, Repr

/-- Model of `f64::is_nan`. -/
def F.isNan : F → Bool
  | .nan => true
  | .val _ => false

/-- Model of `f64` subtraction (`new_value - old_value`); NaN-propagating. -/
def F.sub : F → F → F
  | .nan, _ => .nan
  | _, .nan => .nan
  | .val a, .val b => .val (a - b)

/-- Model of `f64` division by `ms as f64` for a natural `ms`; NaN-propagating in the
numerator.  Only used on paths where `ms ≠ 0`. -/
def F.divNat : F → Nat → F
  | .nan, _ => .nan
  | .val a, n => .val (a / (n : ℚ))

/-- The `two_sum` error-free transformation used by the `accurate` crate's
`Sum2` accumulator. -/
def twoSum (a b : ℚ) : ℚ × ℚ :=
  let s := a + b
  let bb := s - a
  (s, (a - (s - bb)) + (b - bb))

/-- Model of `sum_with_accumulator::<Sum2<_>>()`: second-order compensated summation;
accumulates a running sum and a running correction via `twoSum`, returning
their final sum. -/
def sum2 (xs : List ℚ) : ℚ :=
  let acc := xs.foldl (fun (p : ℚ × ℚ) x =>
    let q := twoSum p.1 x
    (q.1, p.2 + q.2)) (0, 0)
  acc.1 + acc.2

/-- Model of `CounterData<f64>`: current value plus display label. -/
structure CounterData where
  cur_value : F
  label : String
deriving DecidableEq, Repr

/-- Model of `GaugeCounter::update`: stores the new value, returns the old one; never
fails, ignores `ms`. -/
def GaugeCounter.update (s : CounterData) (new_value : F) (_ms : Nat) :
    CounterData × Except String F :=
  ({ s with cur_value := new_value }, .ok s.cur_value)

/-- Model of `GaugeCounter::new`. -/
def GaugeCounter.new (label : String) : CounterData :=
  { cur_value := F.nan, label := label }

/-- Model of `DiffCounter::update`: computes the difference with the previous value
(NaN if there was none), unconditionally stores the new value, then fails on
`ms == 0` and otherwise returns `diff / ms`. -/
def DiffCounter.update (s : CounterData) (new_value : F) (ms : Nat) :
    CounterData × Except String F :=
  let old_value := s.cur_value
  let diff := if old_value.isNan then F.nan else new_value.sub old_value
  let s' := { s with cur_value := new_value }
  match ms with
  | 0 => (s', .error "division by zero")
  | _ => (s', .ok (diff.divNat ms))

/-- Model of `DiffCounter::new`. -/
def DiffCounter.new (label : String) : CounterData :=
  { cur_value := F.nan, label := label }

/-- Model of `KnownCounter`. -/
inductive KnownCounter where
  | ham | spam | junk | total | avgTime | unknown
deriving DecidableEq, Repr

/-- Model of `From<KnownCounter> for &'static str`. -/
def KnownCounter.toLabel : KnownCounter → String
  | .ham => "ham msg/sec"
  | .spam => "spam msg/sec"
  | .junk => "junk msg/sec"
  | .total => "total msg/sec"
  | .avgTime => "average_time sec"
  | .unknown => "unknown"

/-- The two `Counter` implementations behind `Box<dyn Counter<f64>>`. -/
inductive CounterKind where
  | gauge | diff
deriving DecidableEq, Repr

/-- A boxed counter: which implementation it is, plus its `CounterData`. -/
structure BoxedCounter where
  kind : CounterKind
  data : CounterData
deriving DecidableEq, Repr

/-- Dynamic dispatch of `Counter::update` over the two implementations. -/
def BoxedCounter.update (c : BoxedCounter) (new_value : F) (ms : Nat) :
    BoxedCounter × Except String F :=
  match c.kind with
  | .gauge =>
      let r := GaugeCounter.update c.data new_value ms
      ({ c with data := r.1 }, r.2)
  | .diff =>
      let r := DiffCounter.update c.data new_value ms
      ({ c with data := r.1 }, r.2)

/-- Model of `RspamdStatElement`: history buffer, boxed counter, capacity. -/
structure RspamdStatElement where
  values : List F
  counter : BoxedCounter
  nelts : Nat
deriving DecidableEq, Repr

/-- Model of `RspamdStatElement::new`. -/
def RspamdStatElement.new (nelts : Nat) (action : KnownCounter) (is_gauge : Bool) :
    RspamdStatElement :=
  let counter : BoxedCounter :=
    if is_gauge then ⟨.gauge, GaugeCounter.new action.toLabel⟩
    else ⟨.diff, DiffCounter.new action.toLabel⟩
  { values := [], counter := counter, nelts := nelts }

/-- Model of `RspamdStatElement::update` with `ms = elapsed.as_millis()`: delegates to
the counter, propagates errors, and appends non-NaN results to the history
after evicting the front when the buffer is full. -/
def RspamdStatElement.update (e : RspamdStatElement) (value : F) (ms : Nat) :
    RspamdStatElement × Except String F :=
  let r := e.counter.update value ms
  match r.2 with
  | .error s => ({ e with counter := r.1 }, .error s)
  | .ok nv =>
      if nv.isNan then
        ({ e with counter := r.1 }, .ok nv)
      else
        let vs := if e.values.length ≥ e.nelts then e.values.tail else e.values
        ({ e with counter := r.1, values := vs ++ [nv] }, .ok nv)

/-- Run a sequence of element updates, keeping only the evolving state. -/
def RspamdStatElement.runUpdates (e : RspamdStatElement) (vs : List F) (ms : Nat) :
    RspamdStatElement :=
  vs.foldl (fun e v => (e.update v ms).1) e

/-- Run a sequence of element updates whose elapsed time may vary per call. -/
def RspamdStatElement.runUpdatesVar (e : RspamdStatElement)
    (vs : List (F × Nat)) : RspamdStatElement :=
  vs.foldl (fun e p => (e.update p.1 p.2).1) e

/-- Model of `serde_json::Value`, restricted to what `counters.rs` observes.
`uintNum` is a JSON integer in `u64` range (`as_u64` succeeds); `floatNum` is
any other JSON number (`as_u64` fails, `as_f64` succeeds); the remaining
constructors are non-numeric values. -/
inductive Json where
  | uintNum : Nat → Json
  | floatNum : ℚ → Json
  | str : String → Json
  | null : Json
  | arr : List Json → Json
  | obj : List (String × Json) → Json

/-- Model of `Value::get(key)`: object member lookup, `None` on non-objects. -/
def Json.get : Json → String → Option Json
  | .obj kvs, k => kvs.lookup k
  | _, _ => none

/-- Model of `Value::as_u64`. -/
def Json.as_u64 : Json → Option Nat
  | .uintNum n => some n
  | _ => none

/-- Model of `Value::as_f64`. -/
def Json.as_f64 : Json → Option ℚ
  | .uintNum n => some (n : ℚ)
  | .floatNum q => some q
  | _ => none

/-- Model of `Value::is_array`. -/
def Json.is_array : Json → Bool
  | .arr _ => true
  | _ => false

/-- Model of `RspamdStat`: one element per tracked metric. -/
structure RspamdStat where
  spam_stats : RspamdStatElement
  ham_stats : RspamdStatElement
  junk_stats : RspamdStatElement
  total : RspamdStatElement
  avg_time : RspamdStatElement
deriving DecidableEq, Repr

/-- Model of `RspamdStat::new`. -/
def RspamdStat.new (nelts : Nat) : RspamdStat :=
  { spam_stats := RspamdStatElement.new nelts .spam false
    ham_stats := RspamdStatElement.new nelts .ham false
    junk_stats := RspamdStatElement.new nelts .junk false
    total := RspamdStatElement.new nelts .total false
    avg_time := RspamdStatElement.new nelts .avgTime true }

/-- The tolerant field extraction and fold of `update_specific_from_json`:
sums `as_u64` of each configured field, missing fields and non-`u64` values
contributing zero. -/
def sumFields (actions : Json) (fields : List String) : Nat :=
  fields.foldl (fun acc f =>
    acc + (((actions.get f).map (fun v => (v.as_u64).getD 0)).getD 0)) 0

/-- Model of `update_specific_from_json`: scales the summed fields by `mult`, feeds the
result through the element, and returns the scaled total on success. -/
def update_specific_from_json (elt : RspamdStatElement) (actions_json : Json)
    (field : List String) (ms : Nat) (mult : ℚ) :
    RspamdStatElement × Except String ℚ :=
  let total : ℚ := ((sumFields actions_json field : Nat) : ℚ) * mult
  let r := elt.update (F.val total) ms
  match r.2 with
  | .error e => (r.1, .error e)
  | .ok _ => (r.1, .ok total)

/-- The scan-time sample filter: `as_f64().unwrap_or(NAN)` then drop NaNs. -/
def scanTimesFiltered (scan_times : List Json) : List F :=
  (scan_times.map (fun jn => (jn.as_f64).elim F.nan F.val)).filter
    (fun n => !n.isNan)

/-- Extract the rational from a non-NaN `F` (filtered lists contain no NaN). -/
def F.toRat : F → ℚ
  | .nan => 0
  | .val q => q

/-- The final stage of `RspamdStat::update_from_json`: if the snapshot carries
a "scan_times" array, filter out non-numeric entries and, when any remain,
feed their compensated-summation mean through the average-time element. -/
def RspamdStat.updateScanTimes (st1 : RspamdStat) (json : Json) (ms : Nat) :
    RspamdStat × Except String Unit :=
  match json.get "scan_times" with
  | some (Json.arr scan_times) =>
    let avg_times := scanTimesFiltered scan_times
    if avg_times.isEmpty then (st1, .ok ())
    else
      let cnt : ℚ := (avg_times.length : ℚ)
      let avg_time := F.val (sum2 (avg_times.map F.toRat) / cnt)
      match st1.avg_time.update avg_time ms with
      | (avg', .error e) => ({ st1 with avg_time := avg' }, .error e)
      | (avg', .ok _) => ({ st1 with avg_time := avg' }, .ok ())
  | _ => (st1, .ok ())

/-- Model of `RspamdStat::update_from_json`: requires the "actions" mapping, updates
spam/ham/junk/total in order with fail-fast error propagation, then optionally
averages the "scan_times" array into the gauge element. -/
def RspamdStat.update_from_json (st : RspamdStat) (json : Json) (ms : Nat) :
    RspamdStat × Except String Unit :=
  match json.get "actions" with
  | none => (st, .error "missing actions")
  | some actions =>
    match update_specific_from_json st.spam_stats actions ["reject"] ms 1000 with
    | (spam', .error e) => ({ st with spam_stats := spam' }, .error e)
    | (spam', .ok spam_cnt) =>
      match update_specific_from_json st.ham_stats actions ["no action"] ms 1000 with
      | (ham', .error e) =>
          ({ st with spam_stats := spam', ham_stats := ham' }, .error e)
      | (ham', .ok ham_cnt) =>
        match update_specific_from_json st.junk_stats actions ["add header", "rewrite subject"] ms 1000 with
        | (junk', .error e) =>
            ({ st with spam_stats := spam', ham_stats := ham', junk_stats := junk' }, .error e)
        | (junk', .ok junk_cnt) =>
          match st.total.update (F.val (spam_cnt + ham_cnt + junk_cnt)) ms with
          | (total', .error e) =>
              ({ st with spam_stats := spam', ham_stats := ham', junk_stats := junk', total := total' }, .error e)
          | (total', .ok _) =>
            RspamdStat.updateScanTimes
              { st with spam_stats := spam', ham_stats := ham', junk_stats := junk', total := total' }
              json ms

/-- Run a sequence of snapshot updates, keeping only the evolving state. -/
def RspamdStat.run (st : RspamdStat) (inputs : List (Json × Nat)) : RspamdStat :=
  inputs.foldl (fun st p => (st.update_from_json p.1 p.2).1) st

/-- Successive per-millisecond differences of a raw-value stream: seeded with
previous value `p`, each element is `(next - prev) / ms`. -/
def diffsFrom (ms : Nat) : ℚ → List ℚ → List ℚ
  | _, [] => []
  | p, x :: xs => ((x - p) / (ms : ℚ)) :: diffsFrom ms x xs

/-- The last element of a list, or the seed when the list is empty. -/
def lastOr : ℚ → List ℚ → ℚ
  | p, [] => p
  | _, x :: xs => lastOr x xs

/-- The last `n` elements of a list (all of it when it is shorter). -/
def tailTake {α : Type} (n : Nat) (l : List α) : List α :=
  l.drop (l.length - n)

/-- The counter kinds `RspamdStat::new` sets up: four rate counters and one
gauge. -/
def RspamdStat.Kinds (st : RspamdStat) : Prop :=
  st.spam_stats.counter.kind = .diff ∧ st.ham_stats.counter.kind = .diff ∧
  st.junk_stats.counter.kind = .diff ∧ st.total.counter.kind = .diff ∧
  st.avg_time.counter.kind = .gauge

/-- The previous raw values of the four rate elements are synchronised: either
none has seen a sample yet, or the total's previous value is the sum of the
other three. -/
def RspamdStat.PrevSync (st : RspamdStat) : Prop :=
  (st.spam_stats.counter.data.cur_value = F.nan ∧
   st.ham_stats.counter.data.cur_value = F.nan ∧
   st.junk_stats.counter.data.cur_value = F.nan ∧
   st.total.counter.data.cur_value = F.nan) ∨
  (∃ s h j : ℚ,
    st.spam_stats.counter.data.cur_value = F.val s ∧
    st.ham_stats.counter.data.cur_value = F.val h ∧
    st.junk_stats.counter.data.cur_value = F.val j ∧
    st.total.counter.data.cur_value = F.val (s + h + j))

/-- The most recent derived values of the four rate histories are
synchronised: either all four histories are empty, or the total's latest entry
is the sum of the other three latest entries. -/
def RspamdStat.LastSync (st : RspamdStat) : Prop :=
  (st.spam_stats.values = [] ∧ st.ham_stats.values = [] ∧
   st.junk_stats.values = [] ∧ st.total.values = []) ∨
  (∃ a b c : ℚ,
    st.spam_stats.values.getLast? = some (F.val a) ∧
    st.ham_stats.values.getLast? = some (F.val b) ∧
    st.junk_stats.values.getLast? = some (F.val c) ∧
    st.total.values.getLast? = some (F.val (a + b + c)))

/-- The aggregator invariant maintained by positive-elapsed snapshot
updates. -/
def RspamdStat.Inv (st : RspamdStat) : Prop :=
  st.Kinds ∧ st.PrevSync ∧ st.LastSync

/-- A snapshot whose "actions" object is empty (all fields extract as 0). -/
def cexActionsEmpty : Json := Json.obj [("actions", Json.obj [])]

/-- A snapshot whose "actions" object maps "reject" to 5. -/
def cexActionsReject5 : Json :=
  Json.obj [("actions", Json.obj [("reject", Json.uintNum 5)])]

/-- A snapshot carrying scan-time samples `[1.0, 2.0, non-numeric, 3.0]`. -/
def cexScanGood : Json :=
  Json.obj [("actions", Json.obj []),
    ("scan_times", Json.arr [Json.floatNum 1, Json.floatNum 2, Json.str "NaN",
      Json.floatNum 3])]

/-- A snapshot carrying an empty scan-time sample array. -/
def cexScanEmpty : Json :=
  Json.obj [("actions", Json.obj []), ("scan_times", Json.arr [])]

/-- A snapshot whose scan-time samples are all non-numeric. -/
def cexScanAllNan : Json :=
  Json.obj [("actions", Json.obj []),
    ("scan_times", Json.arr [Json.str "a", Json.null])]

/-- A run that primes the counters, then suffers one zero-elapsed cycle: the
failed cycle advances only the spam element's previous value, desynchronising
it from the total element. -/
def cexStatDesync : RspamdStat :=
  (RspamdStat.new 4).run [(cexActionsEmpty, 1000), (cexActionsReject5, 0)]

/-! ## Element-level update lemmas -/

/-- A gauge-backed element update: returns the old stored value, stores the
new one, appends the old value when it was not NaN; never fails. -/
theorem elt_update_gauge_eq (e : RspamdStatElement) (v : F) (ms : Nat)
    (hk : e.counter.kind = .gauge) :
    e.update v ms =
      ({ e with
          counter := ⟨.gauge, ⟨v, e.counter.data.label⟩⟩,
          values := if e.counter.data.cur_value.isNan then e.values else
            (if e.values.length ≥ e.nelts then e.values.tail else e.values)
              ++ [e.counter.data.cur_value] },
       .ok e.counter.data.cur_value) := by
  obtain ⟨vals, ⟨k, ⟨cv, lab⟩⟩, n⟩ := e
  simp only at hk
  subst hk
  cases cv <;>
    simp [RspamdStatElement.update, BoxedCounter.update, GaugeCounter.update, F.isNan]

/-- A rate-backed element update with no previous value: returns the NaN
sentinel, stores the new value, appends nothing. -/
theorem elt_update_diff_nan_eq (e : RspamdStatElement) (v : F) (ms : Nat)
    (hk : e.counter.kind = .diff) (hc : e.counter.data.cur_value = F.nan)
    (hms : 0 < ms) :
    e.update v ms =
      ({ e with counter := ⟨.diff, ⟨v, e.counter.data.label⟩⟩ }, .ok F.nan) := by
  obtain ⟨vals, ⟨k, ⟨cv, lab⟩⟩, n⟩ := e
  simp only at hk hc
  subst hk; subst hc
  cases ms with
  | zero => exact absurd hms (by simp)
  | succ m =>
    simp [RspamdStatElement.update, BoxedCounter.update, DiffCounter.update,
      F.isNan, F.divNat]

/-- A rate-backed element update with a previous value `p` and positive
elapsed time: returns and appends the rate `(x - p) / ms`, stores `x`. -/
theorem elt_update_diff_val_eq (e : RspamdStatElement) (x p : ℚ) (ms : Nat)
    (hk : e.counter.kind = .diff) (hc : e.counter.data.cur_value = F.val p)
    (hms : 0 < ms) :
    e.update (F.val x) ms =
      ({ e with
          counter := ⟨.diff, ⟨F.val x, e.counter.data.label⟩⟩,
          values := (if e.values.length ≥ e.nelts then e.values.tail else e.values)
            ++ [F.val ((x - p) / (ms : ℚ))] },
       .ok (F.val ((x - p) / (ms : ℚ)))) := by
  obtain ⟨vals, ⟨k, ⟨cv, lab⟩⟩, n⟩ := e
  simp only at hk hc
  subst hk; subst hc
  cases ms with
  | zero => exact absurd hms (by simp)
  | succ m =>
    simp [RspamdStatElement.update, BoxedCounter.update, DiffCounter.update,
      F.isNan, F.divNat, F.sub]

/-- A rate-backed element update with zero elapsed time: fails with the
division-by-zero error, stores the new value, leaves the history alone. -/
theorem elt_update_diff_zero_eq (e : RspamdStatElement) (v : F)
    (hk : e.counter.kind = .diff) :
    e.update v 0 =
      ({ e with counter := ⟨.diff, ⟨v, e.counter.data.label⟩⟩ },
       .error "division by zero") := by
  obtain ⟨vals, ⟨k, ⟨cv, lab⟩⟩, n⟩ := e
  simp only at hk
  subst hk
  simp [RspamdStatElement.update, BoxedCounter.update, DiffCounter.update]

/-! ## Aggregator-stage lemmas -/

/-- Evaluating `update_specific_from_json` on a rate element with no previous value:
records the scaled total as previous, appends nothing, succeeds. -/
theorem update_specific_diff_nan_eq (elt : RspamdStatElement) (a : Json)
    (fs : List String) (ms : Nat) (mult : ℚ)
    (hk : elt.counter.kind = .diff) (hc : elt.counter.data.cur_value = F.nan)
    (hms : 0 < ms) :
    update_specific_from_json elt a fs ms mult =
      ({ elt with
          counter := ⟨.diff, ⟨F.val ((sumFields a fs : ℚ) * mult),
            elt.counter.data.label⟩⟩ },
       .ok ((sumFields a fs : ℚ) * mult)) := by
  simp only [update_specific_from_json,
    elt_update_diff_nan_eq elt _ ms hk hc hms]

/-- Evaluating `update_specific_from_json` on a rate element with previous value `p`:
appends the per-millisecond rate of the scaled total, succeeds with the
scaled total. -/
theorem update_specific_diff_val_eq (elt : RspamdStatElement) (a : Json)
    (fs : List String) (ms : Nat) (mult p : ℚ)
    (hk : elt.counter.kind = .diff) (hc : elt.counter.data.cur_value = F.val p)
    (hms : 0 < ms) :
    update_specific_from_json elt a fs ms mult =
      ({ elt with
          counter := ⟨.diff, ⟨F.val ((sumFields a fs : ℚ) * mult),
            elt.counter.data.label⟩⟩,
          values := (if elt.values.length ≥ elt.nelts then elt.values.tail
              else elt.values)
            ++ [F.val (((sumFields a fs : ℚ) * mult - p) / (ms : ℚ))] },
       .ok ((sumFields a fs : ℚ) * mult)) := by
  simp only [update_specific_from_json,
    elt_update_diff_val_eq elt _ p ms hk hc hms]

/-- Evaluating `update_specific_from_json` on a rate element with zero elapsed time:
fails with division by zero after advancing the previous value. -/
theorem update_specific_diff_zero_eq (elt : RspamdStatElement) (a : Json)
    (fs : List String) (mult : ℚ)
    (hk : elt.counter.kind = .diff) :
    update_specific_from_json elt a fs 0 mult =
      ({ elt with
          counter := ⟨.diff, ⟨F.val ((sumFields a fs : ℚ) * mult),
            elt.counter.data.label⟩⟩ },
       .error "division by zero") := by
  simp only [update_specific_from_json, elt_update_diff_zero_eq elt _ hk]

/-- The scan-time stage only ever touches the `avg_time` element and never
fails when that element is gauge-backed. -/
theorem updateScanTimes_shape (st1 : RspamdStat) (j : Json) (ms : Nat)
    (hk : st1.avg_time.counter.kind = .gauge) :
    ∃ av : RspamdStatElement,
      st1.updateScanTimes j ms = ({ st1 with avg_time := av }, .ok ()) ∧
      av.counter.kind = .gauge := by
  unfold RspamdStat.updateScanTimes
  cases hsc : j.get "scan_times" with
  | none => exact ⟨st1.avg_time, by simp, hk⟩
  | some sc =>
    cases sc with
    | arr l =>
      by_cases he : (scanTimesFiltered l).isEmpty
      · exact ⟨st1.avg_time, by simp [he], hk⟩
      · simp only [he, Bool.false_eq_true, if_false,
          elt_update_gauge_eq st1.avg_time _ ms hk]
        exact ⟨_, rfl, rfl⟩
    | uintNum n => exact ⟨st1.avg_time, by simp, hk⟩
    | floatNum q => exact ⟨st1.avg_time, by simp, hk⟩
    | str s => exact ⟨st1.avg_time, by simp, hk⟩
    | null => exact ⟨st1.avg_time, by simp, hk⟩
    | obj kvs => exact ⟨st1.avg_time, by simp, hk⟩

/-! ## Rolling-history run lemmas -/

/-- Unfolding one step of `runUpdates`. -/
theorem runUpdates_cons (e : RspamdStatElement) (v : F) (vs : List F) (ms : Nat) :
    e.runUpdates (v :: vs) ms = ((e.update v ms).1).runUpdates vs ms := rfl

/-- Lemma: `diffsFrom` produces one derived value per raw value. -/
theorem diffsFrom_length (ms : Nat) :
    ∀ (xs : List ℚ) (p : ℚ), (diffsFrom ms p xs).length = xs.length := by
  intro xs
  induction xs with
  | nil => intro p; rfl
  | cons x xs ih => intro p; simp [diffsFrom, ih]

/-- Index characterisation of `diffsFrom`: entry `i` is the difference of raw
values `i` and `i+1` of the seeded stream, divided by `ms`. -/
theorem diffsFrom_getElem? (ms : Nat) :
    ∀ (xs : List ℚ) (p : ℚ) (i : Nat) (x y : ℚ),
      xs[i]? = some x → (p :: xs)[i]? = some y →
      (diffsFrom ms p xs)[i]? = some ((x - y) / (ms : ℚ)) := by
  intro xs
  induction xs with
  | nil => intro p i x y hx; simp at hx
  | cons z zs ih =>
    intro p i x y hx hy
    cases i with
    | zero =>
      simp only [List.getElem?_cons_zero, Option.some.injEq] at hx hy
      subst hx; subst hy
      simp [diffsFrom]
    | succ n =>
      simp only [List.getElem?_cons_succ] at hx hy
      simpa [diffsFrom] using ih z n x y hx hy

/-- Dropping the head does not change the last `n` elements when at least `n`
remain. -/
theorem tailTake_cons {α : Type} (n : Nat) (x : α) (l : List α)
    (h : n ≤ l.length) : tailTake n (x :: l) = tailTake n l := by
  unfold tailTake
  rw [List.length_cons, Nat.succ_sub h, List.drop_succ_cons]

/-- Lemma: `tailTake` is the identity on lists no longer than `n`. -/
theorem tailTake_of_le {α : Type} (n : Nat) (l : List α)
    (h : l.length ≤ n) : tailTake n l = l := by
  unfold tailTake
  rw [Nat.sub_eq_zero_of_le h, List.drop_zero]

/-- Running a primed rate element over raw values `xs` leaves the last `cap`
derived differences in the history and the last raw value as the previous
value. -/
theorem runUpdates_diff_val (ms : Nat) (hms : 0 < ms) :
    ∀ (xs : List ℚ) (ws : List F) (p : ℚ) (lab : String) (cap : Nat),
      1 ≤ cap → ws.length ≤ cap →
      RspamdStatElement.runUpdates ⟨ws, ⟨.diff, ⟨F.val p, lab⟩⟩, cap⟩
          (xs.map F.val) ms
        = ⟨tailTake cap (ws ++ (diffsFrom ms p xs).map F.val),
           ⟨.diff, ⟨F.val (lastOr p xs), lab⟩⟩, cap⟩ := by
  intro xs
  induction xs with
  | nil =>
    intro ws p lab cap hcap hws
    simp only [List.map_nil, RspamdStatElement.runUpdates, List.foldl_nil,
      diffsFrom, List.map_nil, List.append_nil, lastOr]
    rw [tailTake_of_le cap ws hws]
  | cons x xs ih =>
    intro ws p lab cap hcap hws
    rw [List.map_cons, runUpdates_cons,
      elt_update_diff_val_eq ⟨ws, ⟨.diff, ⟨F.val p, lab⟩⟩, cap⟩ x p ms rfl rfl hms]
    dsimp only
    by_cases hfull : ws.length ≥ cap
    · have hlen : ws.length = cap := Nat.le_antisymm hws hfull
      obtain ⟨w, t, rfl⟩ : ∃ w t, ws = w :: t := by
        cases ws with
        | nil => exfalso; rw [← hlen] at hcap; exact absurd hcap (by simp)
        | cons w t => exact ⟨w, t, rfl⟩
      rw [if_pos hfull]
      have harg : ((w :: t).tail ++ [F.val ((x - p) / (ms : ℚ))]).length ≤ cap := by
        simp only [List.tail_cons, List.length_append, List.length_singleton]
        simp only [List.length_cons] at hlen
        omega
      rw [ih ((w :: t).tail ++ [F.val ((x - p) / (ms : ℚ))]) x lab cap hcap harg]
      have hlist : (w :: t).tail ++ [F.val ((x - p) / (ms : ℚ))]
            ++ (diffsFrom ms x xs).map F.val
          = t ++ F.val ((x - p) / (ms : ℚ)) :: (diffsFrom ms x xs).map F.val := by
        simp
      have hlen2 : cap ≤ (t ++ F.val ((x - p) / (ms : ℚ))
          :: (diffsFrom ms x xs).map F.val).length := by
        simp only [List.length_append, List.length_cons]
        simp only [List.length_cons] at hlen
        omega
      rw [hlist, show (w :: t) ++ (diffsFrom ms p (x :: xs)).map F.val
          = w :: (t ++ F.val ((x - p) / (ms : ℚ)) :: (diffsFrom ms x xs).map F.val)
        from by simp [diffsFrom]]
      rw [tailTake_cons cap w _ hlen2]
      simp [lastOr]
    · rw [if_neg hfull]
      have harg : (ws ++ [F.val ((x - p) / (ms : ℚ))]).length ≤ cap := by
        simp only [List.length_append, List.length_singleton]
        omega
      rw [ih (ws ++ [F.val ((x - p) / (ms : ℚ))]) x lab cap hcap harg]
      rw [show ws ++ [F.val ((x - p) / (ms : ℚ))] ++ (diffsFrom ms x xs).map F.val
          = ws ++ (diffsFrom ms p (x :: xs)).map F.val from by simp [diffsFrom]]
      simp [lastOr]

/-- Running a fresh rate element over raw values `v0 :: rest`: the first
sample is suppressed, the history holds the last `cap` successive differences,
and the previous value is the last raw value. -/
theorem runUpdates_fresh (cap ms : Nat) (k : KnownCounter) (v0 : ℚ)
    (rest : List ℚ) (hms : 0 < ms) (hcap : 1 ≤ cap) :
    (RspamdStatElement.new cap k false).runUpdates ((v0 :: rest).map F.val) ms
      = ⟨tailTake cap ((diffsFrom ms v0 rest).map F.val),
         ⟨.diff, ⟨F.val (lastOr v0 rest), k.toLabel⟩⟩, cap⟩ := by
  rw [List.map_cons, runUpdates_cons,
    show RspamdStatElement.new cap k false
      = ⟨[], ⟨.diff, ⟨F.nan, k.toLabel⟩⟩, cap⟩ from rfl,
    elt_update_diff_nan_eq _ (F.val v0) ms rfl rfl hms]
  dsimp only
  simpa using runUpdates_diff_val ms hms rest [] v0 k.toLabel cap hcap (by simp)

/-- Lemma: `RspamdStatElement::update` never changes the capacity. -/
theorem update_nelts (e : RspamdStatElement) (v : F) (ms : Nat) :
    ((e.update v ms).1).nelts = e.nelts := by
  simp only [RspamdStatElement.update]
  split
  · rfl
  · split <;> rfl

/-- One element update preserves `len(history) ≤ capacity` when the capacity
is at least one. -/
theorem update_length_le (e : RspamdStatElement) (v : F) (ms : Nat)
    (hcap : 1 ≤ e.nelts) (hlen : e.values.length ≤ e.nelts) :
    ((e.update v ms).1).values.length ≤ e.nelts := by
  simp only [RspamdStatElement.update]
  split
  · exact hlen
  · split
    · exact hlen
    · simp only [List.length_append, List.length_singleton]
      split
      · simp only [List.length_tail]
        omega
      · rename_i hlt
        simp only [ge_iff_le, not_le] at hlt
        omega

/-- Any run of element updates, with per-call elapsed times, preserves
`len(history) ≤ capacity` when the capacity is at least one. -/
theorem runUpdatesVar_length_le (vs : List (F × Nat)) :
    ∀ (e : RspamdStatElement), 1 ≤ e.nelts →
      e.values.length ≤ e.nelts →
      ((e.runUpdatesVar vs)).values.length ≤ e.nelts := by
  induction vs with
  | nil => intro e _ h2; exact h2
  | cons v vs ih =>
    intro e h1 h2
    have hstep : e.runUpdatesVar (v :: vs)
        = ((e.update v.1 v.2).1).runUpdatesVar vs := rfl
    rw [hstep]
    have h1' : 1 ≤ (e.update v.1 v.2).1.nelts := by
      rw [update_nelts]; exact h1
    have h2' : (e.update v.1 v.2).1.values.length ≤ (e.update v.1 v.2).1.nelts := by
      rw [update_nelts]; exact update_length_le e v.1 v.2 h1 h2
    have hrun := ih (e.update v.1 v.2).1 h1' h2'
    rw [update_nelts] at hrun
    exact hrun

/-! ## Aggregator synchronisation invariant -/

/-- Splitting a sum of differences over a common denominator. -/
theorem rate_sum_div (X Y Z s h j m : ℚ) :
    (X + Y + Z - (s + h + j)) / m = (X - s) / m + (Y - h) / m + (Z - j) / m := by
  rw [div_add_div_same, div_add_div_same]
  congr 1
  ring

/-- The fresh aggregator satisfies the synchronisation invariant. -/
theorem inv_new (n : Nat) : (RspamdStat.new n).Inv :=
  ⟨⟨rfl, rfl, rfl, rfl, rfl⟩, Or.inl ⟨rfl, rfl, rfl, rfl⟩,
   Or.inl ⟨rfl, rfl, rfl, rfl⟩⟩

/-- The scan-time stage preserves the synchronisation invariant: it only
replaces the gauge element. -/
theorem updateScanTimes_Inv (st1 : RspamdStat) (j : Json) (ms : Nat)
    (hInv : st1.Inv) : ((st1.updateScanTimes j ms).1).Inv := by
  obtain ⟨⟨k1, k2, k3, k4, k5⟩, hPrev, hLast⟩ := hInv
  obtain ⟨av, hav, havk⟩ := updateScanTimes_shape st1 j ms k5
  rw [hav]
  exact ⟨⟨k1, k2, k3, k4, havk⟩, hPrev, hLast⟩

/-- One snapshot update with positive elapsed time preserves the
synchronisation invariant. -/
theorem inv_step (st : RspamdStat) (j : Json) (ms : Nat) (hms : 0 < ms)
    (hInv : st.Inv) : ((st.update_from_json j ms).1).Inv := by
  obtain ⟨⟨hk1, hk2, hk3, hk4, hk5⟩, hPrev, hLast⟩ := hInv
  cases hj : j.get "actions" with
  | none =>
    simp only [RspamdStat.update_from_json, hj]
    exact ⟨⟨hk1, hk2, hk3, hk4, hk5⟩, hPrev, hLast⟩
  | some a =>
    rcases hPrev with ⟨hp1, hp2, hp3, hp4⟩ | ⟨s, h, q, hp1, hp2, hp3, hp4⟩
    · simp only [RspamdStat.update_from_json, hj,
        update_specific_diff_nan_eq st.spam_stats a ["reject"] ms 1000 hk1 hp1 hms,
        update_specific_diff_nan_eq st.ham_stats a ["no action"] ms 1000 hk2 hp2 hms,
        update_specific_diff_nan_eq st.junk_stats a ["add header", "rewrite subject"]
          ms 1000 hk3 hp3 hms,
        elt_update_diff_nan_eq st.total
          (F.val ((sumFields a ["reject"] : ℚ) * 1000
            + (sumFields a ["no action"] : ℚ) * 1000
            + (sumFields a ["add header", "rewrite subject"] : ℚ) * 1000))
          ms hk4 hp4 hms]
      exact updateScanTimes_Inv _ j ms
        ⟨⟨rfl, rfl, rfl, rfl, hk5⟩, Or.inr ⟨_, _, _, rfl, rfl, rfl, rfl⟩, hLast⟩
    · simp only [RspamdStat.update_from_json, hj,
        update_specific_diff_val_eq st.spam_stats a ["reject"] ms 1000 s hk1 hp1 hms,
        update_specific_diff_val_eq st.ham_stats a ["no action"] ms 1000 h hk2 hp2 hms,
        update_specific_diff_val_eq st.junk_stats a ["add header", "rewrite subject"]
          ms 1000 q hk3 hp3 hms,
        elt_update_diff_val_eq st.total
          ((sumFields a ["reject"] : ℚ) * 1000
            + (sumFields a ["no action"] : ℚ) * 1000
            + (sumFields a ["add header", "rewrite subject"] : ℚ) * 1000)
          (s + h + q) ms hk4 hp4 hms]
      refine updateScanTimes_Inv _ j ms
        ⟨⟨rfl, rfl, rfl, rfl, hk5⟩, Or.inr ⟨_, _, _, rfl, rfl, rfl, rfl⟩,
         Or.inr ⟨((sumFields a ["reject"] : ℚ) * 1000 - s) / (ms : ℚ),
          ((sumFields a ["no action"] : ℚ) * 1000 - h) / (ms : ℚ),
          ((sumFields a ["add header", "rewrite subject"] : ℚ) * 1000 - q) / (ms : ℚ),
          List.getLast?_concat _, List.getLast?_concat _, List.getLast?_concat _,
          ?_⟩⟩
      rw [List.getLast?_concat]
      rw [rate_sum_div ((sumFields a ["reject"] : ℚ) * 1000)
        ((sumFields a ["no action"] : ℚ) * 1000)
        ((sumFields a ["add header", "rewrite subject"] : ℚ) * 1000) s h q (ms : ℚ)]

/-- The synchronisation invariant holds after any run of snapshot updates
with positive elapsed intervals. -/
theorem inv_run (inputs : List (Json × Nat)) :
    ∀ (st : RspamdStat), st.Inv → (∀ p ∈ inputs, 0 < p.2) →
      ((st.run inputs)).Inv := by
  induction inputs with
  | nil => intro st hInv _; exact hInv
  | cons p rest ih =>
    intro st hInv hpos
    exact ih _ (inv_step st p.1 p.2 (hpos p (List.mem_cons_self p rest)) hInv)
      (fun q hq => hpos q (List.mem_cons_of_mem p hq))

/-! ## Claim theorems -/

/-- C1 (counterexample): "Gauge-variant update returns `rawValue` unchanged"
is false: starting from a fresh gauge counter, updating with raw value 1 and
then with raw value 2 returns 1 — the previously stored value — not the raw
input 2.  This matches the repository's own `gauge_counter_test`. -/
theorem c1_gauge_counterexample :
    (GaugeCounter.update
        (GaugeCounter.update (GaugeCounter.new "unknown") (F.val 1) 1).1
        (F.val 2) 1).2 = Except.ok (F.val 1) ∧ F.val 1 ≠ F.val 2 :=
  ⟨rfl, by decide⟩

/-- C1 (amended): Gauge-variant `update` stores `rawValue` as the new current
value and returns the *previously* stored value (NaN before the first call);
the result does not depend on `elapsedMillis` (including zero) and is never an
error. -/
theorem c1_gauge_update_returns_previous (s : CounterData) (v : F) (ms : Nat) :
    GaugeCounter.update s v ms
      = ({ s with cur_value := v }, Except.ok s.cur_value) :=
  rfl

unseal Rat.mul Rat.add Rat.sub Rat.inv in
/-- C2 (counterexample): after a zero-elapsed cycle advances only the spam
element's previous value, a later successful `update_from_json` leaves the
total series' latest derived value (5) different from the sum (0) of the
latest derived values of the spam, ham and junk series. -/
theorem c2_total_counterexample :
    (cexStatDesync.update_from_json cexActionsReject5 1000).2 = Except.ok () ∧
    (cexStatDesync.update_from_json cexActionsReject5 1000).1.total.values.getLast?
      = some (F.val 5) ∧
    (cexStatDesync.update_from_json cexActionsReject5 1000).1.spam_stats.values.getLast?
      = some (F.val 0) ∧
    (cexStatDesync.update_from_json cexActionsReject5 1000).1.ham_stats.values.getLast?
      = some (F.val 0) ∧
    (cexStatDesync.update_from_json cexActionsReject5 1000).1.junk_stats.values.getLast?
      = some (F.val 0) ∧
    F.val 5 ≠ F.val (0 + 0 + 0) :=
  ⟨rfl, by decide, by decide, by decide, by decide, by decide⟩

/-- C2 (amended): in any run from a fresh aggregator in which every elapsed
interval is positive (so no DivisionByZero cycle ever desynchronises the
counters), whenever the total series has a latest derived value it equals the
sum of the latest derived values of the spam, ham and junk series from the
same cycle. -/
theorem c2_total_latest_is_sum (n : Nat) (inputs : List (Json × Nat))
    (hpos : ∀ p ∈ inputs, 0 < p.2) (t : F)
    (ht : ((RspamdStat.new n).run inputs).total.values.getLast? = some t) :
    ∃ a b c : ℚ,
      ((RspamdStat.new n).run inputs).spam_stats.values.getLast?
        = some (F.val a) ∧
      ((RspamdStat.new n).run inputs).ham_stats.values.getLast?
        = some (F.val b) ∧
      ((RspamdStat.new n).run inputs).junk_stats.values.getLast?
        = some (F.val c) ∧
      t = F.val (a + b + c) := by
  obtain ⟨_, _, hLast⟩ := inv_run inputs (RspamdStat.new n) (inv_new n) hpos
  rcases hLast with ⟨_, _, _, l4⟩ | ⟨a, b, c, m1, m2, m3, m4⟩
  · rw [l4] at ht; simp at ht
  · exact ⟨a, b, c, m1, m2, m3, Option.some.inj (ht.symm.trans m4)⟩

unseal Rat.mul Rat.add Rat.sub Rat.inv in
/-- Witness for C2: two positive-elapsed cycles on the same snapshot leave
latest rates 0, 0, 0 and total 0 = 0 + 0 + 0. -/
theorem c2_total_latest_is_sum_witness :
    ∃ a b c : ℚ,
      ((RspamdStat.new 2).run
          [(cexActionsReject5, 1000), (cexActionsReject5, 1000)]).spam_stats.values.getLast?
        = some (F.val a) ∧
      ((RspamdStat.new 2).run
          [(cexActionsReject5, 1000), (cexActionsReject5, 1000)]).ham_stats.values.getLast?
        = some (F.val b) ∧
      ((RspamdStat.new 2).run
          [(cexActionsReject5, 1000), (cexActionsReject5, 1000)]).junk_stats.values.getLast?
        = some (F.val c) ∧
      F.val 0 = F.val (a + b + c) :=
  c2_total_latest_is_sum 2 [(cexActionsReject5, 1000), (cexActionsReject5, 1000)]
    (by
      intro p hp
      simp only [List.mem_cons, List.not_mem_nil, or_false] at hp
      rcases hp with rfl | rfl <;> decide)
    (F.val 0) (by decide)

/-- C3: a Rate-variant series element updated with zero elapsed milliseconds
returns the DivisionByZero error, leaves the history unmutated, and still
records the supplied raw value as the previous value. -/
theorem c3_zero_elapsed (e : RspamdStatElement) (v : F)
    (hk : e.counter.kind = .diff) :
    (e.update v 0).2 = Except.error "division by zero" ∧
    (e.update v 0).1.values = e.values ∧
    (e.update v 0).1.counter.data.cur_value = v := by
  rw [elt_update_diff_zero_eq e v hk]
  exact ⟨rfl, rfl, rfl⟩

/-- Witness for C3 at a concrete rate element and raw value. -/
theorem c3_zero_elapsed_witness :
    ((RspamdStatElement.new 2 .unknown false).update (F.val 3) 0).2
      = Except.error "division by zero" ∧
    ((RspamdStatElement.new 2 .unknown false).update (F.val 3) 0).1.values
      = (RspamdStatElement.new 2 .unknown false).values ∧
    ((RspamdStatElement.new 2 .unknown false).update (F.val 3) 0).1.counter.data.cur_value
      = F.val 3 :=
  c3_zero_elapsed (RspamdStatElement.new 2 .unknown false) (F.val 3) rfl

/-- C4: the first update of a Rate-variant series element (previous value
still NaN) at positive elapsed time returns the "not yet available" NaN
sentinel, records the raw value as previous, and appends nothing to the
history. -/
theorem c4_first_update (e : RspamdStatElement) (v : F) (ms : Nat)
    (hk : e.counter.kind = .diff) (hc : e.counter.data.cur_value = F.nan)
    (hms : 0 < ms) :
    (e.update v ms).2 = Except.ok F.nan ∧
    (e.update v ms).1.values = e.values ∧
    (e.update v ms).1.counter.data.cur_value = v := by
  rw [elt_update_diff_nan_eq e v ms hk hc hms]
  exact ⟨rfl, rfl, rfl⟩

/-- Witness for C4 at a freshly constructed rate element. -/
theorem c4_first_update_witness :
    ((RspamdStatElement.new 2 .unknown false).update (F.val 1) 1).2
      = Except.ok F.nan ∧
    ((RspamdStatElement.new 2 .unknown false).update (F.val 1) 1).1.values
      = (RspamdStatElement.new 2 .unknown false).values ∧
    ((RspamdStatElement.new 2 .unknown false).update (F.val 1) 1).1.counter.data.cur_value
      = F.val 1 :=
  c4_first_update (RspamdStatElement.new 2 .unknown false) (F.val 1) 1 rfl rfl
    (by decide)

/-- C5: for `n ≤ capacity` consecutive successful rate updates with raw
values `v0..vn` (given as a list of length `n+1`) at a fixed positive elapsed
time, every history entry `i` equals `(v[i+1] - v[i]) / elapsed_ms`. -/
theorem c5_history_is_rates (vs : List ℚ) (cap ms i : Nat) (k : KnownCounter)
    (x y : ℚ) (hms : 0 < ms) (hcap : vs.length ≤ cap + 1)
    (hx : vs[i + 1]? = some x) (hy : vs[i]? = some y) :
    ((RspamdStatElement.new cap k false).runUpdates (vs.map F.val) ms).values[i]?
      = some (F.val ((x - y) / (ms : ℚ))) := by
  cases vs with
  | nil => simp at hy
  | cons v0 rest =>
    have hx' : rest[i]? = some x := by simpa using hx
    have hi : i < rest.length := by
      by_contra hge
      push_neg at hge
      rw [List.getElem?_eq_none hge] at hx'
      cases hx'
    have hrl : rest.length ≤ cap := by
      simp only [List.length_cons] at hcap
      omega
    have hcap1 : 1 ≤ cap := by omega
    rw [runUpdates_fresh cap ms k v0 rest hms hcap1]
    rw [tailTake_of_le cap ((diffsFrom ms v0 rest).map F.val)
      (by rw [List.length_map, diffsFrom_length]; exact hrl)]
    rw [List.getElem?_map, diffsFrom_getElem? ms rest v0 i x y hx' hy]
    rfl

/-- Witness for C5: raw values `[1, 3]` at 2 ms give a single history entry
`(3 - 1) / 2 = 1`. -/
theorem c5_history_is_rates_witness :
    ((RspamdStatElement.new 2 .unknown false).runUpdates
        ([1, 3].map F.val) 2).values[0]?
      = some (F.val ((3 - 1) / ((2 : Nat) : ℚ))) :=
  c5_history_is_rates [1, 3] 2 2 0 .unknown 3 1 (by decide) (by decide)
    rfl rfl

unseal Rat.mul Rat.add Rat.sub Rat.inv in
/-- C6 (counterexample): with capacity 0 the history length exceeds the
capacity after one appendable update, so "len(history) never exceeds the
configured capacity" fails as stated for every series. -/
theorem c6_capacity_counterexample :
    (((RspamdStatElement.new 0 .unknown false).update (F.val 1) 1).1.update
        (F.val 5) 1).1.values.length = 1 ∧
    ¬((((RspamdStatElement.new 0 .unknown false).update (F.val 1) 1).1.update
        (F.val 5) 1).1.values.length
      ≤ (RspamdStatElement.new 0 .unknown false).nelts) := by
  refine ⟨?_, ?_⟩
  · decide
  · decide

/-- C6 (amended): provided the configured capacity is at least 1,
`len(history)` never exceeds it under any run of updates; moreover, for a
fresh rate series run over `capacity + 2` raw values (producing
`capacity + 1` appended derived values), the history has exactly `capacity`
entries and entry `i` is the derived value of appended update `i + 2` — in
particular `history[0]` is the second appended derived value, the first
having been evicted. -/
theorem c6_capacity_and_eviction :
    (∀ (e : RspamdStatElement) (vsp : List (F × Nat)),
      1 ≤ e.nelts → e.values.length ≤ e.nelts →
      ((e.runUpdatesVar vsp)).values.length ≤ e.nelts) ∧
    (∀ (vs : List ℚ) (cap ms i : Nat) (k : KnownCounter) (x y : ℚ),
      0 < ms → vs.length = cap + 2 → 1 ≤ cap →
      vs[i + 2]? = some x → vs[i + 1]? = some y →
      ((RspamdStatElement.new cap k false).runUpdates
          (vs.map F.val) ms).values.length = cap ∧
      ((RspamdStatElement.new cap k false).runUpdates
          (vs.map F.val) ms).values[i]?
        = some (F.val ((x - y) / (ms : ℚ)))) := by
  constructor
  · intro e vsp h1 h2
    exact runUpdatesVar_length_le vsp e h1 h2
  · intro vs cap ms i k x y hms hlen hcap hx hy
    cases vs with
    | nil => simp at hlen
    | cons v0 rest =>
      have hrl : rest.length = cap + 1 := by
        simp only [List.length_cons] at hlen
        omega
      rw [runUpdates_fresh cap ms k v0 rest hms hcap]
      have hdl : ((diffsFrom ms v0 rest).map F.val).length = cap + 1 := by
        rw [List.length_map, diffsFrom_length]
        exact hrl
      have htt : tailTake cap ((diffsFrom ms v0 rest).map F.val)
          = ((diffsFrom ms v0 rest).map F.val).drop 1 := by
        unfold tailTake
        rw [hdl]
        norm_num
      rw [htt]
      constructor
      · rw [List.length_drop, hdl]
        omega
      · rw [List.getElem?_drop, List.getElem?_map]
        have hx' : rest[i + 1]? = some x := by simpa using hx
        rw [show 1 + i = i + 1 from Nat.add_comm 1 i,
          diffsFrom_getElem? ms rest v0 (i + 1) x y hx' hy]
        rfl

/-- Witness for C6: both conjuncts instantiated — a capacity-2 series keeps
at most 2 entries, and after 4 raw values `[0, 1, 3, 6]` at 1 ms the history
is `[(3-1)/1, (6-3)/1]`, whose head is the second appended derived value. -/
theorem c6_capacity_and_eviction_witness :
    (((RspamdStatElement.new 2 .unknown false).runUpdatesVar
        [(F.val 0, 1), (F.val 1, 0), (F.val 3, 2)]).values.length ≤ 2) ∧
    ((RspamdStatElement.new 2 .unknown false).runUpdates
        ([0, 1, 3, 6].map F.val) 1).values.length = 2 ∧
    ((RspamdStatElement.new 2 .unknown false).runUpdates
        ([0, 1, 3, 6].map F.val) 1).values[0]?
      = some (F.val ((3 - 1) / ((1 : Nat) : ℚ))) :=
  ⟨c6_capacity_and_eviction.1 (RspamdStatElement.new 2 .unknown false)
      [(F.val 0, 1), (F.val 1, 0), (F.val 3, 2)] (by decide) (by decide),
   c6_capacity_and_eviction.2 [0, 1, 3, 6] 2 1 0 .unknown 3 1 (by decide) rfl
      (by decide) rfl rfl⟩

/-- C7: a snapshot with no "actions" member makes `update_from_json` fail
with the missing-field error and return the aggregator state entirely
unchanged — all histories and counter states included. -/
theorem c7_missing_actions (st : RspamdStat) (j : Json) (ms : Nat)
    (h : j.get "actions" = none) :
    st.update_from_json j ms = (st, Except.error "missing actions") := by
  simp only [RspamdStat.update_from_json, h]

/-- Witness for C7 at a concrete aggregator and actions-free snapshot. -/
theorem c7_missing_actions_witness :
    (RspamdStat.new 2).update_from_json (Json.obj []) 7
      = (RspamdStat.new 2, Except.error "missing actions") :=
  c7_missing_actions (RspamdStat.new 2) (Json.obj []) 7 rfl

unseal Rat.mul Rat.add Rat.sub Rat.inv in
/-- C8: with scan-time samples `[1.0, 2.0, non-numeric, 3.0]` the gauge
element receives their mean 2.0 (the non-numeric entry is mapped to NaN and
filtered out) and the call succeeds; with an empty or entirely non-numeric
sample array the gauge element is left completely untouched and no error is
raised. -/
theorem c8_scan_times_mean :
    ((RspamdStat.new 2).update_from_json cexScanGood 1000).1.avg_time.counter.data.cur_value
      = F.val 2 ∧
    ((RspamdStat.new 2).update_from_json cexScanGood 1000).2 = Except.ok () ∧
    ((RspamdStat.new 2).update_from_json cexScanEmpty 1000).1.avg_time
      = (RspamdStat.new 2).avg_time ∧
    ((RspamdStat.new 2).update_from_json cexScanEmpty 1000).2 = Except.ok () ∧
    ((RspamdStat.new 2).update_from_json cexScanAllNan 1000).1.avg_time
      = (RspamdStat.new 2).avg_time ∧
    ((RspamdStat.new 2).update_from_json cexScanAllNan 1000).2 = Except.ok () := by
  refine ⟨by decide, rfl, by decide, rfl, by decide, rfl⟩

/-- C9: when the first (spam) sub-update fails with DivisionByZero — the only
failure a sub-update can produce, arising exactly at zero elapsed time — the
error is propagated as the call's result and none of the later metrics in the
processing order (ham, junk, total, average scan time) is updated. -/
theorem c9_fail_fast (st : RspamdStat) (j : Json) (a : Json)
    (hk : st.spam_stats.counter.kind = .diff) (h : j.get "actions" = some a) :
    (st.update_from_json j 0).2 = Except.error "division by zero" ∧
    (st.update_from_json j 0).1.ham_stats = st.ham_stats ∧
    (st.update_from_json j 0).1.junk_stats = st.junk_stats ∧
    (st.update_from_json j 0).1.total = st.total ∧
    (st.update_from_json j 0).1.avg_time = st.avg_time := by
  simp only [RspamdStat.update_from_json, h,
    update_specific_diff_zero_eq st.spam_stats a ["reject"] 1000 hk]
  exact ⟨trivial, trivial, trivial, trivial, trivial⟩

/-- Witness for C9 at a concrete aggregator and snapshot. -/
theorem c9_fail_fast_witness :
    ((RspamdStat.new 2).update_from_json cexActionsReject5 0).2
      = Except.error "division by zero" ∧
    ((RspamdStat.new 2).update_from_json cexActionsReject5 0).1.ham_stats
      = (RspamdStat.new 2).ham_stats ∧
    ((RspamdStat.new 2).update_from_json cexActionsReject5 0).1.junk_stats
      = (RspamdStat.new 2).junk_stats ∧
    ((RspamdStat.new 2).update_from_json cexActionsReject5 0).1.total
      = (RspamdStat.new 2).total ∧
    ((RspamdStat.new 2).update_from_json cexActionsReject5 0).1.avg_time
      = (RspamdStat.new 2).avg_time :=
  c9_fail_fast (RspamdStat.new 2) cexActionsReject5
    (Json.obj [("reject", Json.uintNum 5)]) rfl rfl

unseal Rat.mul Rat.add Rat.sub Rat.inv in
/-- C10: a series constructed with capacity 0 still appends an appendable
derived value — updating a fresh capacity-0 rate element with raw values 1
then 3 at 1 ms leaves one history entry, `(3 - 1) / 1 = 2`, exceeding the
capacity of 0.  Hence `len(history) ≤ capacity` requires `capacity ≥ 1`. -/
theorem c10_capacity_zero_appends :
    (((RspamdStatElement.new 0 .unknown false).update (F.val 1) 1).1.update
        (F.val 3) 1).1.values = [F.val 2] ∧
    (((RspamdStatElement.new 0 .unknown false).update (F.val 1) 1).1.update
        (F.val 3) 1).1.values.length = 1 ∧
    (((RspamdStatElement.new 0 .unknown false).update (F.val 1) 1).1.update
        (F.val 3) 1).1.nelts = 0 := by
  refine ⟨by decide, by decide, rfl⟩
